import Mathlib

/-!
# ffmpeg-ruby stream core: a shallow embedding of `ext/ffmpeg_stream.c`

The C functions of `ffmpeg_stream.c` are rendered as pure Lean functions with
explicit state passing.

* The container (`AVFormatContext`) is the list of packets the demuxer will
  still deliver plus its `start_time`; `av_read_frame` pops the head of the list.
* The decoder, the resampler and the reposition primitive belong to the FFmpeg
  libraries, not to this repository; they appear as function-valued fields
  (`AVCodec`, `Externals`), and the general theorems quantify over them.
* C `double` arithmetic is kept symbolic (`CDouble`): the embedding records which
  floating-point expression the code evaluates and never rounds it.
* Loops that the C code does not bound (the `while (remaining > 0)` decode loops)
  take a fuel argument and return `none` when it runs out.
* C `int`/`int64_t` values are `Int`; signed overflow is undefined behaviour in C
  and lies outside the embedding, conversions from `int64_t` to `int` wrap
  (`toInt32`).
* Memory allocation (`malloc`, `av_frame_alloc`, the Ruby frame object) is taken
  to succeed, and the block given to `decode_frame` to return normally.
-/

namespace FFmpegRuby

/-! ## Constants and plain data -/

/-- The no-timestamp sentinel `AV_NOPTS_VALUE`, that is `INT64_MIN`. -/
def AV_NOPTS_VALUE : Int := -9223372036854775808

/-- The `INT64_MIN` that `av_rescale_rnd` returns on invalid arguments. -/
def INT64_MIN : Int := -9223372036854775808

/-- The negative code `AVERROR_EOF` that `av_read_frame` returns at end of file. -/
def AVERROR_EOF : Int := -541478725

/-- Conversion of an `int64_t` to a 32-bit `int` (two's complement wrap). -/
def toInt32 (x : Int) : Int := (x + 2147483648) % 4294967296 - 2147483648

/-- A rational `AVRational` with numerator `num` and denominator `den`. -/
structure AVRational where
  num : Int
  den : Int
deriving DecidableEq

/-- A symbolic C `double` expression: the operations the source performs on
doubles, uninterpreted. -/
inductive CDouble where
  | ofInt (i : Int)
  | div (a b : CDouble)
  | mul (a b : CDouble)
deriving DecidableEq

/-- The libavutil inline `av_q2d`: `a.num / (double) a.den`. -/
def av_q2d (a : AVRational) : CDouble :=
  CDouble.div (CDouble.ofInt a.num) (CDouble.ofInt a.den)

/-- A demultiplexed packet. `data` is the payload pointer, `none` for `NULL`. -/
structure AVPacket where
  data : Option (List Nat)
  size : Int
  stream_index : Int
  pts : Int
  dts : Int
deriving DecidableEq

/-- The container handle: the packets `av_read_frame` will still deliver, in
order (the read cursor), and the container start time. -/
structure AVFormatContext where
  packets : List AVPacket
  start_time : Int
deriving DecidableEq

/-! ## Packet primitives of libavformat / libavcodec -/

/-- The libavcodec `av_init_packet`: resets the optional fields, leaves `data`
and `size` alone. -/
def av_init_packet (pkt : AVPacket) : AVPacket :=
  { pkt with stream_index := 0, pts := AV_NOPTS_VALUE, dts := AV_NOPTS_VALUE }

/-- The libavcodec `av_free_packet`: releases the payload. -/
def av_free_packet (pkt : AVPacket) : AVPacket :=
  { pkt with data := none, size := 0 }

/-- The libavcodec `av_packet_unref`: releases the payload and resets the
fields to their defaults. -/
def av_packet_unref (pkt : AVPacket) : AVPacket :=
  { av_init_packet pkt with data := none, size := 0 }

/-- The libavformat `av_read_frame`: delivers the next packet of the container
and advances the cursor, or returns a negative code when none is left (the
caller's packet is then left as it was). -/
def av_read_frame (fc : AVFormatContext) (pkt : AVPacket) :
    Int × AVFormatContext × AVPacket :=
  match fc.packets with
  | [] => (AVERROR_EOF, fc, pkt)
  | p :: rest => (0, { fc with packets := rest }, p)

/-! ## PacketSource: `next_packet`, `next_packet_for_stream` -/

/-- Source function `next_packet` (ffmpeg_stream.c 13-26). -/
def next_packet (fc : AVFormatContext) (packet : AVPacket) :
    Int × AVFormatContext × AVPacket :=
  let packet1 := if packet.data ≠ none then av_free_packet packet else packet
  match av_read_frame fc packet1 with
  | (ret, fc1, packet2) => if ret < 0 then (-1, fc1, packet2) else (0, fc1, packet2)

/-- The `do … while` of `next_packet_for_stream`, run for at most `n + 1`
iterations. -/
def next_packet_for_stream_loop :
    Nat → AVFormatContext → Int → AVPacket → Int × AVFormatContext × AVPacket
  | 0, fc, _, packet => next_packet fc packet
  | n + 1, fc, stream_index, packet =>
    match next_packet fc packet with
    | (ret, fc1, packet1) =>
      if packet1.stream_index ≠ stream_index ∧ ret = 0 then
        next_packet_for_stream_loop n fc1 stream_index packet1
      else (ret, fc1, packet1)

/-- Source function `next_packet_for_stream` (ffmpeg_stream.c 28-37). Every
iteration but the last consumes one packet of the container, so the number of
remaining packets bounds the loop (`next_packet_for_stream_unfold`). -/
def next_packet_for_stream (fc : AVFormatContext) (stream_index : Int)
    (packet : AVPacket) : Int × AVFormatContext × AVPacket :=
  next_packet_for_stream_loop fc.packets.length fc stream_index packet

/-- A caller that invokes `next_packet_for_stream` again and again until it
returns non-zero, at most `fuel` times. It returns the packets obtained by the
calls that returned 0, and the result code of the final call (`none` when the
fuel ran out before a non-zero result). -/
def read_all_for_stream :
    Nat → AVFormatContext → Int → AVPacket → List AVPacket × Option Int
  | 0, _, _, _ => ([], none)
  | fuel + 1, fc, stream_index, packet =>
    match next_packet_for_stream fc stream_index packet with
    | (ret, fc1, packet1) =>
      if ret = 0 then
        ((read_all_for_stream fuel fc1 stream_index packet1).1.cons packet1,
          (read_all_for_stream fuel fc1 stream_index packet1).2)
      else ([], some ret)

/-- A packet of stream `i` with a one-byte payload. -/
def pkt (i : Int) : AVPacket :=
  { data := some [0], size := 1, stream_index := i, pts := 0, dts := 0 }

/-- A packet as `av_init_packet` leaves a zeroed one. -/
def blank_packet : AVPacket :=
  { data := none, size := 0, stream_index := 0, pts := AV_NOPTS_VALUE, dts := AV_NOPTS_VALUE }

/-! ## The libraries outside the repository, and Ruby values -/

/-- A decoder of libavcodec. Its answers may depend on every packet it was fed
before (`fed`, latest first) and on the packet at hand.
`avcodec_decode_video2` gives the return value (bytes consumed, negative on
error) and the flag written to `got_picture_ptr`; `avcodec_decode_audio4` gives
the return value, the flag written to `got_frame_ptr` and the byte size
`av_samples_get_buffer_size` reports for the decoded frame. -/
structure AVCodec where
  avcodec_decode_video2 : List AVPacket → AVPacket → Int × Bool
  avcodec_decode_audio4 : List AVPacket → AVPacket → Int × Bool × Int

/-- The per-stream decoder state `AVCodecContext`: `codec` is `none` until the
codec is opened; `fed` lists the packets handed to the decoder so far. -/
structure AVCodecContext where
  codec : Option AVCodec
  codec_id : Nat
  fed : List AVPacket
  channel_layout : Int
  sample_rate : Int

/-- An elementary stream `AVStream`. -/
structure AVStream where
  index : Int
  duration : Int
  time_base : AVRational
  codec : AVCodecContext

/-- What the code calls and this repository does not define: codec lookup and
opening, the converter `swr_convert` (configured with source and destination
channel layout and rate, then given the destination and source sample counts;
it returns the samples produced per channel or a negative code), the reposition
primitive `av_seek_frame` (result code and repositioned container), and the C
conversion of a `double` to `int64_t`, which truncates toward zero. -/
structure Externals where
  avcodec_find_decoder : Nat → Option AVCodec
  avcodec_open2 : AVCodec → Int
  swr_convert : Int → Int → Int → Int → Int → Int → Int
  av_seek_frame : AVFormatContext → Int → Int → Int → Int × AVFormatContext
  double_to_int64 : CDouble → Int

/-- The exception classes the code raises; `Fatal` is `rb_fatal`. -/
inductive RubyErrorClass where
  | RuntimeError
  | RangeError
  | Fatal
deriving DecidableEq

/-- The places where the code raises. -/
inductive RaiseSite where
  | codec_not_found
  | codec_open_failed
  | codec_not_opened
  | no_block_given
  | could_not_seek
deriving DecidableEq

/-- A raised Ruby exception: its class and the raising statement. -/
structure RubyError where
  cls : RubyErrorClass
  site : RaiseSite
deriving DecidableEq

/-- The Ruby values the modelled methods return: `Qnil`, a Float, a byte string
of `len` bytes made by `rb_str_new(ptr, len)` (contents are the decoder's or the
converter's and are not tracked), or `self`. -/
inductive VALUE where
  | Qnil
  | float (x : CDouble)
  | str (len : Int)
  | self
deriving DecidableEq

/-- The codec-opening block shared by `stream_decode_audio` (326-332) and
`stream_decode_frame` (380-386). It gives back the context with its codec set,
and that codec. -/
def open_codec (ext : Externals) (codec_context : AVCodecContext) :
    Except RubyError (AVCodecContext × AVCodec) :=
  match codec_context.codec with
  | some codec => Except.ok (codec_context, codec)
  | none =>
    match ext.avcodec_find_decoder codec_context.codec_id with
    | none => Except.error { cls := RubyErrorClass.RuntimeError, site := RaiseSite.codec_not_found }
    | some codec =>
      if ext.avcodec_open2 codec < 0 then
        Except.error { cls := RubyErrorClass.RuntimeError, site := RaiseSite.codec_open_failed }
      else Except.ok ({ codec_context with codec := some codec }, codec)

/-! ## Decoding state shared by the video and the audio loops -/

/-- The growable output buffer of `extract_next_audio`: `buf_cap` bytes are
allocated behind `*raw_data`, `buf_size` bytes have been copied into it. -/
structure AudioAccumulator where
  buf_cap : Int
  buf_size : Int
deriving DecidableEq

/-- The local variables of `extract_next_frame` / `extract_next_audio` together
with the container and the decoder history they act on. -/
structure DecodeState where
  format_context : AVFormatContext
  fed : List AVPacket
  decoding_packet : AVPacket
  frame_complete : Bool
  next : Int
  acc : AudioAccumulator
  flag : Int
deriving DecidableEq

/-! ## FrameDecoder (video): `extract_next_frame` -/

/-- The inner `while (remaining > 0)` of `extract_next_frame` (213-218). -/
def video_packet_loop (codec : AVCodec) : Nat → Int → DecodeState → Option DecodeState
  | 0, remaining, s => if remaining > 0 then none else some s
  | n + 1, remaining, s =>
    if remaining > 0 then
      match codec.avcodec_decode_video2 s.fed s.decoding_packet with
      | (decoded, got) =>
        video_packet_loop codec n (remaining - decoded)
          { s with fed := s.decoding_packet :: s.fed, frame_complete := got }
    else some s

/-- The outer `while` of `extract_next_frame` (208-219); `fuel` bounds each run
of the inner loop. -/
def extract_next_frame_loop (codec : AVCodec) (stream_index : Int) (fuel : Nat) :
    Nat → DecodeState → Option DecodeState
  | 0, _ => none
  | n + 1, s =>
    if s.frame_complete then some s
    else
      match next_packet_for_stream s.format_context stream_index s.decoding_packet with
      | (next, fc1, packet1) =>
        if next = 0 then
          match video_packet_loop codec fuel packet1.size
              { s with format_context := fc1, decoding_packet := packet1, next := next } with
          | none => none
          | some s1 => extract_next_frame_loop codec stream_index fuel n s1
        else some { s with format_context := fc1, decoding_packet := packet1, next := next }

/-- Source function `extract_next_frame` (194-222). The result is `none` when a
loop outlives the fuel, an `rb_fatal` when the codec was not opened, and
otherwise the returned `next` with the state left behind. -/
def extract_next_frame (fuel : Nat) (format_context : AVFormatContext)
    (codec_context : AVCodecContext) (stream_index : Int) (decoding_packet : AVPacket) :
    Option (Except RubyError (Int × DecodeState)) :=
  match codec_context.codec with
  | none =>
    some (Except.error { cls := RubyErrorClass.Fatal, site := RaiseSite.codec_not_opened })
  | some codec =>
    match extract_next_frame_loop codec stream_index fuel fuel
        { format_context := format_context, fed := codec_context.fed,
          decoding_packet := decoding_packet, frame_complete := false, next := 0,
          acc := { buf_cap := 0, buf_size := 0 }, flag := 0 } with
    | none => none
    | some s => some (Except.ok (s.next, s))

/-! ## StreamView: `stream_decode_frame` -/

/-- One element handed to the block by `rb_yield`: the (reused) frame object
with the packet's `pts` and `dts` scaled by the time base. -/
structure FrameTuple where
  pts : CDouble
  dts : CDouble
deriving DecidableEq

/-- The tuple built at 406-411 and 426-431. -/
def frame_tuple (stream : AVStream) (decoding_packet : AVPacket) : FrameTuple :=
  { pts := CDouble.mul (CDouble.ofInt decoding_packet.pts) (av_q2d stream.time_base),
    dts := CDouble.mul (CDouble.ofInt decoding_packet.dts) (av_q2d stream.time_base) }

/-- What a call of `stream_decode_frame` leaves behind. -/
structure DecodeFrameResult where
  result : Except RubyError VALUE
  format_context : AVFormatContext
  codec_context : AVCodecContext
  main_yields : List FrameTuple
  flush_yields : List FrameTuple

/-- The main `do … while (ret == 0)` of `stream_decode_frame` (402-413). It
returns the tuples yielded, in order, and the state after the last call of
`extract_next_frame`. -/
def decode_frame_main_loop (fuel : Nat) (stream : AVStream) :
    Nat → AVFormatContext → AVCodecContext → AVPacket →
      Option (Except RubyError (List FrameTuple × DecodeState))
  | 0, _, _, _ => none
  | n + 1, format_context, codec_context, decoding_packet =>
    match extract_next_frame fuel format_context codec_context stream.index decoding_packet with
    | none => none
    | some (Except.error e) => some (Except.error e)
    | some (Except.ok (ret, s)) =>
      if ret = 0 then
        match decode_frame_main_loop fuel stream n s.format_context
            { codec_context with fed := s.fed } s.decoding_packet with
        | none => none
        | some (Except.error e) => some (Except.error e)
        | some (Except.ok (ys, s1)) =>
          some (Except.ok (frame_tuple stream s.decoding_packet :: ys, s1))
      else some (Except.ok ([frame_tuple stream s.decoding_packet], s))

/-- The flush `do … while (frame_complete)` of `stream_decode_frame` (419-435).
`frame_complete` enters with the value the uninitialised variable happens to
hold. -/
def decode_frame_flush_loop (codec : AVCodec) (stream : AVStream) :
    Nat → List AVPacket → AVPacket → Bool → Option (List FrameTuple × List AVPacket)
  | 0, _, _, _ => none
  | n + 1, fed, decoding_packet, frame_complete =>
    if decoding_packet.stream_index = stream.index then
      match codec.avcodec_decode_video2 fed decoding_packet with
      | (_, got) =>
        if got then
          match decode_frame_flush_loop codec stream n (decoding_packet :: fed)
              decoding_packet got with
          | none => none
          | some (ys, fed1) => some (frame_tuple stream decoding_packet :: ys, fed1)
        else some ([], decoding_packet :: fed)
    else if frame_complete then
      decode_frame_flush_loop codec stream n fed decoding_packet frame_complete
    else some ([], fed)

/-- Source function `stream_decode_frame` (371-441). `decoding_packet` and
`frame_complete` are the initial contents of the two automatic variables the
code does not initialise in full; `block_given` is `rb_block_given_p()`. The
frame object built at 388-395 touches neither the container nor the decoder.
`extract_next_frame` cannot hit its `rb_fatal` here, the codec being open. -/
def stream_decode_frame (ext : Externals) (fuel : Nat) (format_context : AVFormatContext)
    (stream : AVStream) (decoding_packet : AVPacket) (frame_complete : Bool)
    (block_given : Bool) : Option DecodeFrameResult :=
  match open_codec ext stream.codec with
  | Except.error e =>
    some { result := Except.error e, format_context := format_context,
           codec_context := stream.codec, main_yields := [], flush_yields := [] }
  | Except.ok (codec_context, codec) =>
    let decoding_packet1 := av_init_packet decoding_packet
    if block_given then
      match decode_frame_main_loop fuel { stream with codec := codec_context } fuel
          format_context codec_context decoding_packet1 with
      | none => none
      | some (Except.error e) =>
        some { result := Except.error e, format_context := format_context,
               codec_context := codec_context, main_yields := [], flush_yields := [] }
      | some (Except.ok (ys, s)) =>
        match decode_frame_flush_loop codec stream fuel s.fed
            (av_packet_unref s.decoding_packet) frame_complete with
        | none => none
        | some (zs, fed1) =>
          some { result := Except.ok VALUE.self, format_context := s.format_context,
                 codec_context := { codec_context with fed := fed1 },
                 main_yields := ys, flush_yields := zs }
    else
      some { result := Except.error
               { cls := RubyErrorClass.RuntimeError, site := RaiseSite.no_block_given },
             format_context := format_context, codec_context := codec_context,
             main_yields := [], flush_yields := [] }

/-! ## AudioAccumulator and FrameDecoder (audio): `extract_next_audio` -/

/-- The append step of `extract_next_audio`, written twice in the source
(262-272 and 298-308): if `buf_size + out_size >= buf_cap` the capacity is
doubled once and the content moved, then `out_size` bytes are copied to offset
`buf_size` and `buf_size` grows by `out_size`. -/
def audio_append (acc : AudioAccumulator) (out_size : Int) : AudioAccumulator :=
  { buf_cap := if acc.buf_size + out_size ≥ acc.buf_cap then acc.buf_cap * 2 else acc.buf_cap,
    buf_size := acc.buf_size + out_size }

/-- The accumulator as `extract_next_audio` sets it up (237-239). -/
def audio_init : AudioAccumulator := { buf_cap := 192000, buf_size := 0 }

/-- The accumulator after appending blocks of the given sizes, in order. -/
def audio_appends (acc : AudioAccumulator) (sizes : List Int) : AudioAccumulator :=
  sizes.foldl audio_append acc

/-- The inner `while (remaining > 0)` of `extract_next_audio` (250-278). -/
def audio_packet_loop (codec : AVCodec) : Nat → Int → DecodeState → Option DecodeState
  | 0, remaining, s => if remaining > 0 then none else some s
  | n + 1, remaining, s =>
    if remaining > 0 then
      match codec.avcodec_decode_audio4 s.fed s.decoding_packet with
      | (decoded, got, out_size) =>
        audio_packet_loop codec n (remaining - decoded)
          (if got then
            { s with fed := s.decoding_packet :: s.fed, frame_complete := got,
                     acc := audio_append s.acc out_size, flag := s.flag + out_size }
          else { s with fed := s.decoding_packet :: s.fed, frame_complete := got })
    else some s

/-- The middle `while` of `extract_next_audio` (244-279). -/
def audio_frame_loop (codec : AVCodec) (stream_index : Int) (fuel : Nat) :
    Nat → DecodeState → Option DecodeState
  | 0, _ => none
  | n + 1, s =>
    if s.frame_complete then some s
    else
      match next_packet_for_stream s.format_context stream_index s.decoding_packet with
      | (next, fc1, packet1) =>
        if next = 0 then
          match audio_packet_loop codec fuel packet1.size
              { s with format_context := fc1, decoding_packet := packet1, next := next } with
          | none => none
          | some s1 => audio_frame_loop codec stream_index fuel n s1
        else some { s with format_context := fc1, decoding_packet := packet1, next := next }

/-- The outer `while (1)` of `extract_next_audio` (241-282). -/
def audio_main_loop (codec : AVCodec) (stream_index : Int) (fuel : Nat) :
    Nat → DecodeState → Option DecodeState
  | 0, _ => none
  | n + 1, s =>
    match audio_frame_loop codec stream_index fuel fuel
        { s with flag := 0, frame_complete := false } with
    | none => none
    | some s1 => if s1.flag ≤ 0 then some s1 else audio_main_loop codec stream_index fuel n s1

/-- The flush `do … while (frame_complete)` of `extract_next_audio` (288-313). -/
def audio_flush_loop (codec : AVCodec) (stream_index : Int) :
    Nat → DecodeState → Option DecodeState
  | 0, _ => none
  | n + 1, s =>
    let s1 :=
      if s.decoding_packet.stream_index = stream_index then
        match codec.avcodec_decode_audio4 s.fed s.decoding_packet with
        | (_, got, out_size) =>
          if got then
            { s with fed := s.decoding_packet :: s.fed, frame_complete := got,
                     acc := audio_append s.acc out_size }
          else { s with fed := s.decoding_packet :: s.fed, frame_complete := got }
      else s
    if s1.frame_complete then audio_flush_loop codec stream_index n s1 else some s1

/-- Source function `extract_next_audio` (224-315). The result is `none` when a
loop outlives the fuel, an `rb_fatal` when the codec was not opened, and
otherwise the returned `buf_size` with the state left behind. -/
def extract_next_audio (fuel : Nat) (format_context : AVFormatContext)
    (codec_context : AVCodecContext) (stream_index : Int) (decoding_packet : AVPacket) :
    Option (Except RubyError (Int × DecodeState)) :=
  match codec_context.codec with
  | none =>
    some (Except.error { cls := RubyErrorClass.Fatal, site := RaiseSite.codec_not_opened })
  | some codec =>
    match audio_main_loop codec stream_index fuel fuel
        { format_context := format_context, fed := codec_context.fed,
          decoding_packet := decoding_packet, frame_complete := false, next := 0,
          acc := audio_init, flag := 0 } with
    | none => none
    | some s =>
      match audio_flush_loop codec stream_index fuel
          { s with decoding_packet := av_packet_unref s.decoding_packet,
                   frame_complete := false } with
      | none => none
      | some s1 => some (Except.ok (s1.acc.buf_size, s1))

/-! ## Resampler: `stream_resample` -/

/-- The libavutil `av_rescale_rnd` with the rounding `AV_ROUND_UP`, the only one
the source uses: `a * b / c` rounded up, `INT64_MIN` on a non-positive `c` or a
negative `b`. -/
def av_rescale_rnd (a b c : Int) : Int :=
  if c ≤ 0 ∨ b < 0 then INT64_MIN
  else if a < 0 then -((-a * b) / c)
  else (a * b + (c - 1)) / c

/-- The number of bytes `swr_convert` may write to a packed 16-bit destination
when asked for `dst_nb_samples` samples per channel of `dst_channels` channels:
two bytes for each sample of each channel. -/
def swr_convert_capacity_needed (dst_channels dst_nb_samples : Int) : Int :=
  2 * dst_channels * dst_nb_samples

/-- The sample counts of `stream_resample` (184-185). -/
def resample_src_nb_samples (src_size : Int) : Int := Int.tdiv src_size 4

/-- The destination sample count of `stream_resample` (185). -/
def resample_dst_nb_samples (src_s dst_s src_size : Int) : Int :=
  toInt32 (av_rescale_rnd (resample_src_nb_samples src_size) dst_s src_s)

/-- Source function `stream_resample` (171-192). -/
def stream_resample (ext : Externals) (src_c dst_c src_s dst_s src_size : Int) : Int :=
  let src_nb_samples := resample_src_nb_samples src_size
  let dst_nb_samples := resample_dst_nb_samples src_s dst_s src_size
  let sample_size := ext.swr_convert src_c dst_c src_s dst_s dst_nb_samples src_nb_samples
  sample_size * 2

/-! ## StreamView: `stream_decode_audio` -/

/-- The call of `stream_resample` made by `stream_decode_audio` (350-353), with
the size `init_sample_size` of the destination buffer allocated for it. -/
structure ResampleCall where
  init_sample_size : Int
  src_c : Int
  dst_c : Int
  src_s : Int
  dst_s : Int
  src_size : Int
deriving DecidableEq

/-- What a call of `stream_decode_audio` leaves behind. -/
structure DecodeAudioResult where
  result : Except RubyError VALUE
  format_context : AVFormatContext
  codec_context : AVCodecContext
  resample : Option ResampleCall

/-- Lines 340-364 of `stream_decode_audio`: what is done with the `size` bytes
that `extract_next_audio` returned. -/
def decode_audio_finish (ext : Externals) (codec_context : AVCodecContext)
    (size rb_channel rb_sample_rate : Int) : VALUE × Option ResampleCall :=
  if size > 0 then
    let channel := rb_channel
    let sample_rate := rb_sample_rate
    if channel ≠ 0 ∨ sample_rate ≠ 0 then
      let src_chan := toInt32 codec_context.channel_layout
      let src_rate := codec_context.sample_rate
      let channel1 := if channel ≥ 0 then channel else src_chan
      let sample_rate1 := if sample_rate ≠ 0 then sample_rate else src_rate
      let init_sample_size := toInt32 (av_rescale_rnd size sample_rate1 src_rate)
      let resample_size := stream_resample ext src_chan channel1 src_rate sample_rate1 size
      let call : ResampleCall :=
        { init_sample_size := init_sample_size, src_c := src_chan, dst_c := channel1,
          src_s := src_rate, dst_s := sample_rate1, src_size := size }
      if resample_size > 0 then (VALUE.str resample_size, some call)
      else (VALUE.str size, some call)
    else (VALUE.str size, none)
  else (VALUE.Qnil, none)

/-- Source function `stream_decode_audio` (317-369); `rb_channel` and
`rb_sample_rate` are the arguments after `FIX2INT`, `decoding_packet` is the
initial content of the automatic variable. -/
def stream_decode_audio (ext : Externals) (fuel : Nat) (format_context : AVFormatContext)
    (stream : AVStream) (decoding_packet : AVPacket) (rb_channel rb_sample_rate : Int) :
    Option DecodeAudioResult :=
  match open_codec ext stream.codec with
  | Except.error e =>
    some { result := Except.error e, format_context := format_context,
           codec_context := stream.codec, resample := none }
  | Except.ok (codec_context, _) =>
    match extract_next_audio fuel format_context codec_context stream.index
        (av_init_packet decoding_packet) with
    | none => none
    | some (Except.error e) =>
      some { result := Except.error e, format_context := format_context,
             codec_context := codec_context, resample := none }
    | some (Except.ok (size, s)) =>
      some { result := Except.ok (decode_audio_finish ext codec_context size rb_channel
                          rb_sample_rate).1,
             format_context := s.format_context,
             codec_context := { codec_context with fed := s.fed },
             resample := (decode_audio_finish ext codec_context size rb_channel
                          rb_sample_rate).2 }

/-! ## Metadata and SeekEngine: `stream_duration`, `stream_seek` -/

/-- A decoder that consumes each packet whole and completes one frame, of
`out_size` bytes for audio, from every packet that carries data. -/
def whole_packet_codec (out_size : Int) : AVCodec :=
  { avcodec_decode_video2 := fun _ p => (p.size, decide (p.size > 0)),
    avcodec_decode_audio4 := fun _ p => (p.size, decide (p.size > 0), out_size) }

/-- Libraries in which codec 0 decodes 4096-byte audio frames, every codec
opens, the converter produces every sample it is asked for, every seek
succeeds, and the double conversion is left at 0. -/
def ext0 : Externals :=
  { avcodec_find_decoder := fun _ => some (whole_packet_codec 4096),
    avcodec_open2 := fun _ => 0,
    swr_convert := fun _ _ _ _ out_count _ => out_count,
    av_seek_frame := fun fc _ _ _ => (0, fc),
    double_to_int64 := fun _ => 0 }

/-- A stream with index 1, time base 1/25, stereo layout (3) at 44100 Hz, whose
codec is not opened yet. -/
def stream1 : AVStream :=
  { index := 1, duration := 0, time_base := { num := 1, den := 25 },
    codec := { codec := none, codec_id := 0, fed := [], channel_layout := 3,
               sample_rate := 44100 } }

/-- A container without packets. -/
def empty_container : AVFormatContext := { packets := [], start_time := 0 }

/-- The number of bits set among the lowest `bits` bits of `n`. -/
def count_bits : Nat → Nat → Nat
  | 0, _ => 0
  | bits + 1, n => n % 2 + count_bits bits (n / 2)

/-- The libavutil `av_get_channel_layout_nb_channels`: the number of bits set
in a 64-bit channel layout mask. -/
def av_get_channel_layout_nb_channels (channel_layout : Int) : Int :=
  (count_bits 64 channel_layout.toNat : Nat)

/-! ## Theorems -/

theorem next_packet_nil (st : Int) (packet : AVPacket) :
    next_packet { packets := [], start_time := st } packet =
      (-1, { packets := [], start_time := st },
        if packet.data ≠ none then av_free_packet packet else packet) := by
  simp [next_packet, av_read_frame, AVERROR_EOF]

theorem next_packet_cons (st : Int) (p : AVPacket) (rest : List AVPacket)
    (packet : AVPacket) :
    next_packet { packets := p :: rest, start_time := st } packet =
      (0, { packets := rest, start_time := st }, p) := by
  simp [next_packet, av_read_frame]

/-- The loop equation of the `do … while`: the fuel chosen in
`next_packet_for_stream` never runs out. -/
theorem next_packet_for_stream_unfold (fc : AVFormatContext) (stream_index : Int)
    (packet : AVPacket) :
    next_packet_for_stream fc stream_index packet =
      if (next_packet fc packet).2.2.stream_index ≠ stream_index ∧
          (next_packet fc packet).1 = 0 then
        next_packet_for_stream (next_packet fc packet).2.1 stream_index
          (next_packet fc packet).2.2
      else next_packet fc packet := by
  obtain ⟨pkts, st⟩ := fc
  cases pkts with
  | nil =>
    simp [next_packet_for_stream, next_packet_for_stream_loop, next_packet_nil]
  | cons p rest =>
    simp [next_packet_for_stream, next_packet_for_stream_loop, next_packet_cons]

theorem read_all_for_stream_skip (n : Nat) (st : Int) (p : AVPacket)
    (rest : List AVPacket) (t : Int) (packet : AVPacket) (h : p.stream_index ≠ t) :
    read_all_for_stream (n + 1) { packets := p :: rest, start_time := st } t packet =
      read_all_for_stream (n + 1) { packets := rest, start_time := st } t p := by
  have e : next_packet_for_stream { packets := p :: rest, start_time := st } t packet =
      next_packet_for_stream { packets := rest, start_time := st } t p := by
    rw [next_packet_for_stream_unfold]
    simp [next_packet_cons, h]
  simp only [read_all_for_stream, e]

theorem read_all_for_stream_take (n : Nat) (st : Int) (p : AVPacket)
    (rest : List AVPacket) (t : Int) (packet : AVPacket) (h : p.stream_index = t) :
    read_all_for_stream (n + 1) { packets := p :: rest, start_time := st } t packet =
      ((read_all_for_stream n { packets := rest, start_time := st } t p).1.cons p,
        (read_all_for_stream n { packets := rest, start_time := st } t p).2) := by
  have e : next_packet_for_stream { packets := p :: rest, start_time := st } t packet =
      (0, { packets := rest, start_time := st }, p) := by
    rw [next_packet_for_stream_unfold]
    simp [next_packet_cons, h]
  simp [read_all_for_stream, e]

theorem read_all_for_stream_filter (pkts : List AVPacket) :
    ∀ (k : Nat) (st t : Int) (packet : AVPacket),
      read_all_for_stream (pkts.length + 1 + k) { packets := pkts, start_time := st } t packet =
        (pkts.filter (fun p => decide (p.stream_index = t)), some (-1)) := by
  induction pkts with
  | nil =>
    intro k st t packet
    have e : next_packet_for_stream { packets := [], start_time := st } t packet =
        (-1, { packets := [], start_time := st },
          if packet.data ≠ none then av_free_packet packet else packet) := by
      rw [next_packet_for_stream_unfold]
      simp [next_packet_nil]
    have hk : ([] : List AVPacket).length + 1 + k = k + 1 := by simp; omega
    rw [hk]
    simp [read_all_for_stream, e]
  | cons p rest ih =>
    intro k st t packet
    by_cases h : p.stream_index = t
    · have hk : (p :: rest).length + 1 + k = (rest.length + 1 + k) + 1 := by
        simp; omega
      rw [hk, read_all_for_stream_take _ _ _ _ _ _ h, ih k st t p]
      simp [List.filter, h]
    · have hk : (p :: rest).length + 1 + k = (rest.length + 1 + k) + 1 := by
        simp; omega
      have hk2 : rest.length + 1 + k + 1 = rest.length + 1 + (k + 1) := by omega
      rw [hk, read_all_for_stream_skip _ _ _ _ _ _ h, hk2, ih (k + 1) st t p]
      simp [List.filter, h]

/-- Claim C2. Calling `next_packet_for_stream` repeatedly until it returns
non-zero (with any fuel above the number of packets in the container) yields
exactly the packets of the container whose `stream_index` is the target, in
their original order and each once, and the final call reports end of stream
with -1; for the stream indices [0,1,0,1,1,0] and target 1 the calls yield the
three stream-1 packets (told apart here by their `pts` 1, 3, 4). -/
theorem C2_next_packet_for_stream_yields_target_packets :
    (∀ (fc : AVFormatContext) (target : Int) (packet : AVPacket) (k : Nat),
      read_all_for_stream (fc.packets.length + 1 + k) fc target packet =
        (fc.packets.filter (fun p => decide (p.stream_index = target)), some (-1))) ∧
    read_all_for_stream 7
        { packets := [{ pkt 0 with pts := 0 }, { pkt 1 with pts := 1 }, { pkt 0 with pts := 2 },
            { pkt 1 with pts := 3 }, { pkt 1 with pts := 4 }, { pkt 0 with pts := 5 }],
          start_time := 0 } 1 blank_packet =
      ([{ pkt 1 with pts := 1 }, { pkt 1 with pts := 3 }, { pkt 1 with pts := 4 }], some (-1)) ∧
    (read_all_for_stream 7
        { packets := [{ pkt 0 with pts := 0 }, { pkt 1 with pts := 1 }, { pkt 0 with pts := 2 },
            { pkt 1 with pts := 3 }, { pkt 1 with pts := 4 }, { pkt 0 with pts := 5 }],
          start_time := 0 } 1 blank_packet).1.length = 3 := by
  refine ⟨?_, by decide, by decide⟩
  intro fc target packet k
  obtain ⟨pkts, st⟩ := fc
  exact read_all_for_stream_filter pkts k st target packet

/-! ### AudioAccumulator -/

theorem audio_appends_size (sizes : List Int) :
    ∀ acc : AudioAccumulator, (audio_appends acc sizes).buf_size = acc.buf_size + sizes.sum := by
  induction sizes with
  | nil => intro acc; simp [audio_appends]
  | cons s rest ih =>
    intro acc
    have h := ih (audio_append acc s)
    simp only [audio_appends, List.foldl_cons, List.sum_cons] at h ⊢
    rw [h]
    simp [audio_append]
    ring

theorem audio_appends_cap (sizes : List Int) :
    ∀ acc : AudioAccumulator,
      ∃ k : Nat, (audio_appends acc sizes).buf_cap = acc.buf_cap * 2 ^ k := by
  induction sizes with
  | nil => intro acc; exact ⟨0, by simp [audio_appends]⟩
  | cons s rest ih =>
    intro acc
    obtain ⟨k, hk⟩ := ih (audio_append acc s)
    simp only [audio_appends, List.foldl_cons] at hk ⊢
    by_cases h : acc.buf_size + s ≥ acc.buf_cap
    · refine ⟨k + 1, ?_⟩
      rw [hk]
      simp [audio_append, h]
      ring
    · refine ⟨k, ?_⟩
      rw [hk]
      simp [audio_append, h]

/-- With blocks of at most 192000 bytes each, one doubling is always enough. -/
theorem audio_appends_fits (sizes : List Int) :
    ∀ acc : AudioAccumulator, 192000 ≤ acc.buf_cap → acc.buf_size < acc.buf_cap →
      (∀ s ∈ sizes, 0 ≤ s ∧ s ≤ 192000) →
      (audio_appends acc sizes).buf_size < (audio_appends acc sizes).buf_cap := by
  induction sizes with
  | nil => intro acc _ h _; simpa [audio_appends] using h
  | cons s rest ih =>
    intro acc hcap hsize hs
    have hs0 := hs s (List.mem_cons_self s rest)
    have hrest : ∀ t ∈ rest, 0 ≤ t ∧ t ≤ 192000 :=
      fun t ht => hs t (List.mem_cons_of_mem s ht)
    have key : 192000 ≤ (audio_append acc s).buf_cap ∧
        (audio_append acc s).buf_size < (audio_append acc s).buf_cap := by
      by_cases h : acc.buf_size + s ≥ acc.buf_cap
      · simp only [audio_append, h, if_true]
        constructor <;> omega
      · simp only [audio_append, h, if_false]
        constructor <;> omega
    have := ih (audio_append acc s) key.1 key.2 hrest
    simpa [audio_appends] using this

theorem audio_append_cap_mono (acc : AudioAccumulator) (s : Int) (h : 0 ≤ acc.buf_cap) :
    acc.buf_cap ≤ (audio_append acc s).buf_cap := by
  unfold audio_append
  by_cases hc : acc.buf_size + s ≥ acc.buf_cap
  · simp only [hc, if_true]; omega
  · simp only [hc, if_false]; omega

/-- Claim C1 (the code does not keep the invariant). One append of a 400000-byte
block to the fresh accumulator doubles the capacity once, to 384000, and then
copies 400000 bytes: `buf_size` is the sum of the blocks and `buf_cap` is
192000 * 2, but `buf_size <= buf_cap` fails. The same happens inside
`extract_next_audio` when the decoder completes one 400000-byte frame. -/
theorem C1_audio_append_overruns_capacity :
    audio_appends audio_init [400000] = { buf_cap := 384000, buf_size := 400000 } ∧
    ¬ (audio_appends audio_init [400000]).buf_size ≤ (audio_appends audio_init [400000]).buf_cap ∧
    (extract_next_audio 5 { packets := [pkt 1], start_time := 0 }
        { codec := some (whole_packet_codec 400000), codec_id := 0, fed := [],
          channel_layout := 3, sample_rate := 44100 } 1 blank_packet).map
      (fun r => r.toOption.map (fun p => (p.1, p.2.acc))) =
      some (some (400000, { buf_cap := 384000, buf_size := 400000 })) := by
  refine ⟨by decide, by decide, by decide⟩

/-! ### stream_decode_audio -/

theorem av_rescale_rnd_same_rate (n R : Int) (hn : 0 ≤ n) (hR : 0 < R) :
    av_rescale_rnd n R R = n := by
  unfold av_rescale_rnd
  have h1 : ¬ (R ≤ 0 ∨ R < 0) := by omega
  have h2 : ¬ n < 0 := by omega
  rw [if_neg h1, if_neg h2]
  have h3 : n * R + (R - 1) = (R - 1) + n * R := by ring
  rw [h3, Int.add_mul_ediv_right _ _ (by omega : R ≠ 0)]
  have h4 : (R - 1) / R = 0 := Int.ediv_eq_zero_of_lt (by omega) (by omega)
  omega

theorem open_codec_sets_codec (ext : Externals) (c c1 : AVCodecContext) (codec : AVCodec)
    (h : open_codec ext c = Except.ok (c1, codec)) : c1.codec = some codec := by
  unfold open_codec at h
  split at h
  · next hc => cases h; exact hc
  · split at h
    · cases h
    · split at h
      · cases h
      · cases h; rfl

theorem next_packet_for_stream_absent (pkts : List AVPacket) :
    ∀ (st t : Int) (packet : AVPacket), (∀ p ∈ pkts, p.stream_index ≠ t) →
      (next_packet_for_stream { packets := pkts, start_time := st } t packet).1 = -1 ∧
      (next_packet_for_stream { packets := pkts, start_time := st } t packet).2.1 =
        { packets := [], start_time := st } := by
  induction pkts with
  | nil =>
    intro st t packet _
    rw [next_packet_for_stream_unfold]
    simp [next_packet_nil]
  | cons p rest ih =>
    intro st t packet h
    have hp : p.stream_index ≠ t := h p (List.mem_cons_self p rest)
    have hrest : ∀ q ∈ rest, q.stream_index ≠ t := fun q hq => h q (List.mem_cons_of_mem p hq)
    rw [next_packet_for_stream_unfold]
    simp only [next_packet_cons, ne_eq, hp, not_false_eq_true, and_self, if_true]
    exact ih st t p hrest

/-- On a container that holds no packet of the stream, for a stream index other
than 0 (the index `av_packet_unref` leaves in the packet the flush pass tests),
`extract_next_audio` returns 0 with any positive fuel, having read the container
to its end. -/
theorem extract_next_audio_no_packets (fuel : Nat) (format_context : AVFormatContext)
    (codec_context : AVCodecContext) (codec : AVCodec) (stream_index : Int)
    (decoding_packet : AVPacket) (hcodec : codec_context.codec = some codec)
    (hnone : ∀ p ∈ format_context.packets, p.stream_index ≠ stream_index)
    (hindex : stream_index ≠ 0) :
    ∃ s, extract_next_audio (fuel + 1) format_context codec_context stream_index
        decoding_packet = some (Except.ok (0, s)) ∧ s.format_context.packets = [] := by
  obtain ⟨pkts, st⟩ := format_context
  have habs := next_packet_for_stream_absent pkts st stream_index decoding_packet hnone
  have hne : ¬ (0 : Int) = stream_index := fun h => hindex h.symm
  unfold extract_next_audio
  rw [hcodec]
  simp only [audio_main_loop, audio_frame_loop]
  generalize hr : next_packet_for_stream { packets := pkts, start_time := st } stream_index
    decoding_packet = r at habs
  obtain ⟨next, fc1, packet1⟩ := r
  simp only at habs
  obtain ⟨h1, h2⟩ := habs
  subst h1 h2
  simp [audio_flush_loop, av_packet_unref, av_init_packet, audio_init, hne]

/-- End to end: on a container with no packet of the stream (index other than
0) and a codec that opens, `stream_decode_audio` returns `Qnil`. -/
theorem stream_decode_audio_no_packets (ext : Externals) (fuel : Nat)
    (format_context : AVFormatContext) (stream : AVStream) (decoding_packet : AVPacket)
    (rb_channel rb_sample_rate : Int) (codec_context : AVCodecContext) (codec : AVCodec)
    (hopen : open_codec ext stream.codec = Except.ok (codec_context, codec))
    (hnone : ∀ p ∈ format_context.packets, p.stream_index ≠ stream.index)
    (hindex : stream.index ≠ 0) :
    ∃ r, stream_decode_audio ext (fuel + 1) format_context stream decoding_packet rb_channel
          rb_sample_rate = some r ∧ r.result = Except.ok VALUE.Qnil := by
  obtain ⟨s, hs, _⟩ := extract_next_audio_no_packets fuel format_context codec_context codec
    stream.index (av_init_packet decoding_packet)
    (open_codec_sets_codec ext stream.codec codec_context codec hopen) hnone hindex
  have hfin : decode_audio_finish ext codec_context 0 rb_channel rb_sample_rate =
      (VALUE.Qnil, none) := by
    simp [decode_audio_finish]
  refine ⟨{ result := Except.ok VALUE.Qnil, format_context := s.format_context,
            codec_context := { codec_context with fed := s.fed }, resample := none }, ?_, rfl⟩
  simp only [stream_decode_audio, hopen, hs, hfin]

/-- The target that `stream_decode_audio` hands to `stream_resample` whenever it
resamples: the requested channels unless negative, the requested rate unless 0. -/
theorem decode_audio_finish_target (ext : Externals) (codec_context : AVCodecContext)
    (size rb_channel rb_sample_rate : Int) (hsize : 0 < size)
    (hreq : rb_channel ≠ 0 ∨ rb_sample_rate ≠ 0) :
    ∃ call, (decode_audio_finish ext codec_context size rb_channel rb_sample_rate).2 =
        some call ∧
      call.dst_c = (if rb_channel ≥ 0 then rb_channel else toInt32 codec_context.channel_layout) ∧
      call.dst_s = (if rb_sample_rate ≠ 0 then rb_sample_rate else codec_context.sample_rate) := by
  have h2 : (decode_audio_finish ext codec_context size rb_channel rb_sample_rate).2 =
      some { init_sample_size := toInt32 (av_rescale_rnd size
               (if rb_sample_rate ≠ 0 then rb_sample_rate else codec_context.sample_rate)
               codec_context.sample_rate),
             src_c := toInt32 codec_context.channel_layout,
             dst_c := if rb_channel ≥ 0 then rb_channel else toInt32 codec_context.channel_layout,
             src_s := codec_context.sample_rate,
             dst_s := if rb_sample_rate ≠ 0 then rb_sample_rate else codec_context.sample_rate,
             src_size := size } := by
    unfold decode_audio_finish
    simp only [gt_iff_lt, hsize, if_true, hreq]
    by_cases hr : 0 < stream_resample ext (toInt32 codec_context.channel_layout)
        (if rb_channel ≥ 0 then rb_channel else toInt32 codec_context.channel_layout)
        codec_context.sample_rate
        (if rb_sample_rate ≠ 0 then rb_sample_rate else codec_context.sample_rate) size
    · rw [if_pos hr]
    · rw [if_neg hr]
  exact ⟨_, h2, rfl, rfl⟩

/-- Claim C3 as stated fails: on a container without packets `extract_next_audio`
returns 0 and `stream_decode_audio` returns `Qnil`, which is not the byte string
of length 0. -/
theorem C3_counterexample_empty_container_gives_nil :
    (∃ s, extract_next_audio 5 empty_container
        { stream1.codec with codec := some (whole_packet_codec 4096) } 1
        (av_init_packet blank_packet) = some (Except.ok (0, s))) ∧
    (stream_decode_audio ext0 5 empty_container stream1 blank_packet 2 44100).map
      (fun r => r.result) = some (Except.ok VALUE.Qnil) ∧
    VALUE.Qnil ≠ VALUE.str 0 := by
  refine ⟨⟨_, rfl⟩, rfl, by decide⟩

/-- Claim C3, amended. When the codec opens and `extract_next_audio` returns a
size that is not positive (0 when nothing was decoded), `stream_decode_audio`
returns: its value is `Qnil`, not an exception and not a byte string, and no
resampling takes place. -/
theorem C3_decode_audio_without_audio_returns_nil (ext : Externals) (fuel : Nat)
    (format_context : AVFormatContext) (stream : AVStream) (decoding_packet : AVPacket)
    (rb_channel rb_sample_rate : Int) (codec_context : AVCodecContext) (codec : AVCodec)
    (size : Int) (s : DecodeState)
    (hopen : open_codec ext stream.codec = Except.ok (codec_context, codec))
    (hextract : extract_next_audio fuel format_context codec_context stream.index
        (av_init_packet decoding_packet) = some (Except.ok (size, s)))
    (hsize : size ≤ 0) :
    ∃ r, stream_decode_audio ext fuel format_context stream decoding_packet rb_channel
          rb_sample_rate = some r ∧
      r.result = Except.ok VALUE.Qnil ∧ r.resample = none ∧
      (∀ len, r.result ≠ Except.ok (VALUE.str len)) := by
  have hfin : decode_audio_finish ext codec_context size rb_channel rb_sample_rate =
      (VALUE.Qnil, none) := by
    simp [decode_audio_finish, not_lt.mpr hsize]
  have hrun : stream_decode_audio ext fuel format_context stream decoding_packet rb_channel
      rb_sample_rate =
      some { result := Except.ok VALUE.Qnil, format_context := s.format_context,
             codec_context := { codec_context with fed := s.fed }, resample := none } := by
    simp only [stream_decode_audio, hopen, hextract, hfin]
  refine ⟨_, hrun, rfl, rfl, ?_⟩
  intro len h
  cases h

/-- Witness for C3: the container without packets, read for stream 1. -/
theorem C3_decode_audio_without_audio_returns_nil_witness :
    open_codec ext0 stream1.codec =
      Except.ok ({ stream1.codec with codec := some (whole_packet_codec 4096) },
        whole_packet_codec 4096) ∧
    extract_next_audio 5 empty_container
        { stream1.codec with codec := some (whole_packet_codec 4096) } stream1.index
        (av_init_packet blank_packet) =
      some (Except.ok (0,
        { format_context := empty_container, fed := [],
          decoding_packet := av_packet_unref (av_init_packet blank_packet),
          frame_complete := false, next := -1, acc := audio_init, flag := 0 })) ∧
    (0 : Int) ≤ 0 ∧
    ∃ r, stream_decode_audio ext0 5 empty_container stream1 blank_packet 2 44100 = some r ∧
      r.result = Except.ok VALUE.Qnil ∧ r.resample = none ∧
      (∀ len, r.result ≠ Except.ok (VALUE.str len)) :=
  ⟨rfl, rfl, by decide,
    C3_decode_audio_without_audio_returns_nil ext0 5 empty_container stream1 blank_packet 2 44100
      { stream1.codec with codec := some (whole_packet_codec 4096) } (whole_packet_codec 4096) 0
      { format_context := empty_container, fed := [],
        decoding_packet := av_packet_unref (av_init_packet blank_packet),
        frame_complete := false, next := -1, acc := audio_init, flag := 0 }
      rfl rfl (by decide)⟩

/-- At equal rates, for a whole number `n` of 4-byte source samples and three or
more destination channels, the destination buffer is always smaller than what
`swr_convert` may write. -/
theorem init_sample_size_too_small (n R c : Int) (hn : 0 < n) (hint : 4 * n < 2147483648)
    (hR : 0 < R) (hc : 3 ≤ c) :
    toInt32 (av_rescale_rnd (4 * n) R R) <
      swr_convert_capacity_needed c (resample_dst_nb_samples R R (4 * n)) := by
  have hsrc : resample_src_nb_samples (4 * n) = n := by
    unfold resample_src_nb_samples
    rw [Int.tdiv_eq_ediv (by omega) (by omega)]
    omega
  have hdst : resample_dst_nb_samples R R (4 * n) = n := by
    unfold resample_dst_nb_samples
    rw [hsrc, av_rescale_rnd_same_rate _ _ (by omega) hR]
    unfold toInt32
    omega
  have halloc : toInt32 (av_rescale_rnd (4 * n) R R) = 4 * n := by
    rw [av_rescale_rnd_same_rate _ _ (by omega) hR]
    unfold toInt32
    omega
  rw [halloc, hdst]
  unfold swr_convert_capacity_needed
  nlinarith

/-- Claim C4 (the code under-sizes the destination). Decoding one 4096-byte
frame of a 44100 Hz stream and asking for layout 7 (three channels) at 44100 Hz
allocates `init_sample_size = 4096` bytes and lets `swr_convert` write 1024
samples of 3 channels, 6144 bytes; and with one channel, 4 bytes of 48000 Hz
audio resampled to 8000 Hz get a 1-byte buffer for 2 bytes of output. -/
theorem C4_resample_destination_undersized :
    (stream_decode_audio ext0 5 { packets := [pkt 1], start_time := 0 } stream1 blank_packet
        7 44100).map (fun r => r.resample) =
      some (some { init_sample_size := 4096, src_c := 3, dst_c := 7, src_s := 44100,
                   dst_s := 44100, src_size := 4096 }) ∧
    av_get_channel_layout_nb_channels 7 = 3 ∧
    resample_dst_nb_samples 44100 44100 4096 = 1024 ∧
    swr_convert_capacity_needed 3 (resample_dst_nb_samples 44100 44100 4096) = 6144 ∧
    ¬ swr_convert_capacity_needed 3 (resample_dst_nb_samples 44100 44100 4096) ≤ 4096 ∧
    (decode_audio_finish ext0 { stream1.codec with sample_rate := 48000 } 4 1 8000).2 =
      some { init_sample_size := 1, src_c := 3, dst_c := 1, src_s := 48000,
             dst_s := 8000, src_size := 4 } ∧
    swr_convert_capacity_needed 1 (resample_dst_nb_samples 48000 8000 4) = 2 := by
  refine ⟨by decide, by decide, by decide, by decide, by decide, by decide, by decide⟩

/-- Claim C5 (the code does not fall back to the source layout). With requested
channels 0 and requested rate 22050 on a stream of layout 3 at 44100 Hz,
`stream_decode_audio` calls `stream_resample` with destination layout 0, not
the source layout 3; the rate 22050 is passed through, and a requested rate 0
(with channels 1) falls back to the source rate 44100. -/
theorem C5_zero_channels_passed_as_layout_zero :
    (stream_decode_audio ext0 5 { packets := [pkt 1], start_time := 0 } stream1 blank_packet
        0 22050).map (fun r => r.resample) =
      some (some { init_sample_size := 2048, src_c := 3, dst_c := 0, src_s := 44100,
                   dst_s := 22050, src_size := 4096 }) ∧
    (stream_decode_audio ext0 5 { packets := [pkt 1], start_time := 0 } stream1 blank_packet
        1 0).map (fun r => r.resample) =
      some (some { init_sample_size := 4096, src_c := 3, dst_c := 1, src_s := 44100,
                   dst_s := 44100, src_size := 4096 }) := by
  refine ⟨by decide, by decide⟩

/-! ### stream_decode_frame -/

/-- The main loop of `stream_decode_frame` never ends without a yield. -/
theorem decode_frame_main_loop_yields (fuel : Nat) (stream : AVStream) (n : Nat)
    (format_context : AVFormatContext) (codec_context : AVCodecContext)
    (decoding_packet : AVPacket) (ys : List FrameTuple) (s : DecodeState)
    (h : decode_frame_main_loop fuel stream n format_context codec_context decoding_packet =
      some (Except.ok (ys, s))) :
    ys ≠ [] := by
  cases n with
  | zero => simp [decode_frame_main_loop] at h
  | succ n =>
    unfold decode_frame_main_loop at h
    split at h
    · cases h
    · cases h
    · split at h
      · split at h
        · cases h
        · cases h
        · cases h
          simp
      · cases h
        simp

/-- Claim C10 (the code yields once more than it decodes). On a container
without packets the first call of `extract_next_frame` returns -1, end of
stream, and the main loop of `stream_decode_frame` still yields one tuple, not
none; with two packets of the stream, each completing a frame, it yields three
tuples for the two frames. -/
theorem C10_main_loop_yields_at_end_of_stream :
    (∃ s, extract_next_frame 5 empty_container
        { stream1.codec with codec := some (whole_packet_codec 4096) } 1
        (av_init_packet blank_packet) = some (Except.ok (-1, s))) ∧
    (stream_decode_frame ext0 5 empty_container stream1 blank_packet false true).map
      (fun r => r.main_yields.length) = some 1 ∧
    (stream_decode_frame ext0 5 { packets := [pkt 1, pkt 0, pkt 1], start_time := 0 } stream1
      blank_packet false true).map (fun r => r.main_yields.length) = some 3 := by
  refine ⟨⟨_, rfl⟩, by decide, by decide⟩

/-- Claim C8. Without a block `stream_decode_frame` returns with an exception
of class RuntimeError (no block given, or the codec could not be found or
opened), whatever the fuel; the container, hence its read cursor and the
packets still to be delivered, is the one it was called with, nothing was
handed to the decoder and nothing was yielded. -/
theorem C8_decode_frame_without_block_raises_and_reads_nothing (ext : Externals)
    (fuel : Nat) (format_context : AVFormatContext) (stream : AVStream)
    (decoding_packet : AVPacket) (frame_complete : Bool) :
    ∃ r site, stream_decode_frame ext fuel format_context stream decoding_packet
          frame_complete false = some r ∧
      r.result = Except.error { cls := RubyErrorClass.RuntimeError, site := site } ∧
      r.format_context = format_context ∧
      r.format_context.packets = format_context.packets ∧
      r.codec_context.fed = stream.codec.fed ∧
      r.main_yields = [] ∧ r.flush_yields = [] := by
  unfold stream_decode_frame
  cases hopen : open_codec ext stream.codec with
  | error e =>
    have he : e.cls = RubyErrorClass.RuntimeError := by
      unfold open_codec at hopen
      split at hopen
      · cases hopen
      · split at hopen
        · cases hopen; rfl
        · split at hopen
          · cases hopen; rfl
          · cases hopen
    obtain ⟨cls, site⟩ := e
    simp only at he
    subst he
    exact ⟨_, site, rfl, rfl, rfl, rfl, rfl, rfl, rfl⟩
  | ok p =>
    obtain ⟨codec_context, codec⟩ := p
    have hfed : codec_context.fed = stream.codec.fed := by
      unfold open_codec at hopen
      split at hopen
      · cases hopen; rfl
      · split at hopen
        · cases hopen
        · split at hopen
          · cases hopen
          · cases hopen; rfl
    exact ⟨_, RaiseSite.no_block_given, rfl, rfl, rfl, rfl, hfed, rfl, rfl⟩

/-! ### stream_duration, stream_seek -/

/-- Claim C9 as stated fails: a 192000-byte buffer resampled from 44100 Hz to
44100 Hz with the same layout, the converter producing all 48000 requested
samples, comes back as 96000 bytes, not 192000 and not within one 4-byte source
sample of it. -/
theorem C9_counterexample_same_rate_halves :
    resample_src_nb_samples 192000 = 48000 ∧
    resample_dst_nb_samples 44100 44100 192000 = 48000 ∧
    ext0.swr_convert 3 3 44100 44100 (resample_dst_nb_samples 44100 44100 192000)
      (resample_src_nb_samples 192000) = resample_dst_nb_samples 44100 44100 192000 ∧
    stream_resample ext0 3 3 44100 44100 192000 = 96000 ∧
    stream_resample ext0 3 3 44100 44100 192000 ≠ 192000 ∧
    ¬ (192000 - 4 ≤ stream_resample ext0 3 3 44100 44100 192000) := by
  refine ⟨by decide, by decide, by decide, by decide, by decide, by decide⟩

/-- Claim C9, amended. For a source buffer of `src_size` bytes, `src_size` a
positive C `int`, resampled from rate `R > 0` to the same rate with the same
layout by a converter that produces all requested samples, `stream_resample`
derives `src_nb_samples = src_size / 4` and `dst_nb_samples = src_size / 4` and
returns `2 * (src_size / 4)`: half the source size, rounded down to an even
number of bytes. -/
theorem C9_same_rate_resample_returns_half (ext : Externals) (c R src_size : Int)
    (hpos : 0 < src_size) (hint : src_size < 2147483648) (hR : 0 < R)
    (hfull : ext.swr_convert c c R R (resample_dst_nb_samples R R src_size)
        (resample_src_nb_samples src_size) = resample_dst_nb_samples R R src_size) :
    resample_src_nb_samples src_size = src_size / 4 ∧
    resample_dst_nb_samples R R src_size = src_size / 4 ∧
    stream_resample ext c c R R src_size = 2 * (src_size / 4) ∧
    2 * stream_resample ext c c R R src_size ≤ src_size ∧
    src_size < 2 * stream_resample ext c c R R src_size + 4 := by
  have hsrc : resample_src_nb_samples src_size = src_size / 4 := by
    unfold resample_src_nb_samples
    exact Int.tdiv_eq_ediv (by omega) (by omega)
  have hdst : resample_dst_nb_samples R R src_size = src_size / 4 := by
    unfold resample_dst_nb_samples
    rw [hsrc, av_rescale_rnd_same_rate _ _ (by omega) hR]
    unfold toInt32
    omega
  have hres : stream_resample ext c c R R src_size = 2 * (src_size / 4) := by
    unfold stream_resample
    simp only []
    rw [hfull, hdst]
    ring
  refine ⟨hsrc, hdst, hres, ?_, ?_⟩
  · rw [hres]; omega
  · rw [hres]; omega

/-- Witness for C9: 192000 bytes at 44100 Hz. -/
theorem C9_same_rate_resample_returns_half_witness :
    (0 : Int) < 192000 ∧ (192000 : Int) < 2147483648 ∧ (0 : Int) < 44100 ∧
    ext0.swr_convert 3 3 44100 44100 (resample_dst_nb_samples 44100 44100 192000)
      (resample_src_nb_samples 192000) = resample_dst_nb_samples 44100 44100 192000 ∧
    resample_src_nb_samples 192000 = 192000 / 4 ∧
    resample_dst_nb_samples 44100 44100 192000 = 192000 / 4 ∧
    stream_resample ext0 3 3 44100 44100 192000 = 2 * (192000 / 4) ∧
    2 * stream_resample ext0 3 3 44100 44100 192000 ≤ 192000 ∧
    192000 < 2 * stream_resample ext0 3 3 44100 44100 192000 + 4 :=
  ⟨by decide, by decide, by decide, rfl,
    C9_same_rate_resample_returns_half ext0 3 44100 192000 (by decide) (by decide) (by decide)
      rfl⟩

end FFmpegRuby
